import Mathlib

/-!
# ESPixelStick pixel driver: a shallow embedding of `PixelDriver.h`

The header defines the protocol symbol tables, the GECE packet field masks and
extraction macros, and the inline members of `class PixelDriver` (the channel
setters, `hasWhite`, `setGroup`, `canRefresh`).  They are embedded here as Lean
definitions, machine integers being natural numbers with explicit reductions
modulo `2^16` and `2^32` where the C++ types truncate.  Arguments are taken in the
range of their C++ type (`uint16_t` indices and addresses, `uint8_t` values); the
address expressions of the setters are evaluated in `int`, where they cannot overflow,
and truncated when they are passed to `setRawValue`.
-/

/-! ## Constants and tables -/

/-- Table `LOOKUP_2811`: inverted 6N1 UART symbols for ws2811, one entry per 2-bit slice. -/
def LOOKUP_2811 : List Nat :=
  [ 0b00110111,     -- 00 - (1)000 100(0)
    0b00000111,     -- 01 - (1)000 111(0)
    0b00110100,     -- 10 - (1)110 100(0)
    0b00000100 ]    -- 11 - (1)110 111(0)

/-- Table `LOOKUP_GECE`: 7N1 UART symbols for GECE, one entry per packet bit. -/
def LOOKUP_GECE : List Nat :=
  [ 0b01111100,     -- 0 - (0)00 111 11(1)
    0b01100000 ]    -- 1 - (0)00 000 11(1)

def GECE_DEFAULT_BRIGHTNESS : Nat := 0xCC

def GECE_ADDRESS_MASK : Nat := 0x03F00000
def GECE_BRIGHTNESS_MASK : Nat := 0x000FF000
def GECE_BLUE_MASK : Nat := 0x00000F00
def GECE_GREEN_MASK : Nat := 0x000000F0
def GECE_RED_MASK : Nat := 0x0000000F

/-- Macro `GECE_GET_ADDRESS(packet)`, expanded as a stand-alone expression. -/
def GECE_GET_ADDRESS (packet : Nat) : Nat := (packet >>> 20) &&& 0x3F
/-- Macro `GECE_GET_BRIGHTNESS(packet)`, expanded as a stand-alone expression. -/
def GECE_GET_BRIGHTNESS (packet : Nat) : Nat := (packet >>> 12) &&& 0xFF
/-- Macro `GECE_GET_BLUE(packet)`, expanded as a stand-alone expression. -/
def GECE_GET_BLUE (packet : Nat) : Nat := (packet >>> 8) &&& 0x0F
/-- Macro `GECE_GET_GREEN(packet)`, expanded as a stand-alone expression. -/
def GECE_GET_GREEN (packet : Nat) : Nat := (packet >>> 4) &&& 0x0F
/-- Macro `GECE_GET_RED(packet)`, expanded as a stand-alone expression. -/
def GECE_GET_RED (packet : Nat) : Nat := packet &&& 0x0F

def GECE_PSIZE : Nat := 26

/-! ## Enumerations -/

/-- Pixel types (`enum class PixelType`). -/
inductive PixelType where
  | WS2811
  | GECE
  | SK6812RGBW
  deriving DecidableEq, Repr

/-- Colour orders (`enum class PixelColor`). -/
inductive PixelColor where
  | RGB
  | GRB
  | BRG
  | RBG
  | GBR
  | BGR
  | RGBW
  | GRBW
  | BRGW
  | RBGW
  | GBRW
  | BGRW
  deriving DecidableEq, Repr

/-! ## Driver state

`pixdata` is the memory seen through the `pixdata` pointer, indexed by the
byte offset from it: the channel buffer is the window `[0, szBuffer)` and a
store `pixdata[address] = value` with a larger `address` lands past that window,
since the header performs no range check.  The pointers `asyncdata` and `pbuff`
are not referenced by any function defined in the header and are left out.
The static members `rOffset` .. `wOffset` are carried as fields.
-/

/-- Data members of `class PixelDriver`. -/
structure PixelDriver where
  type : PixelType
  color : PixelColor
  color_count : Nat
  cntGroup : Nat
  cntZigzag : Nat
  pin : Nat
  pixdata : Nat → Nat
  numPixels : Nat
  szBuffer : Nat
  startTime : Nat
  refreshTime : Nat
  rOffset : Nat
  gOffset : Nat
  bOffset : Nat
  wOffset : Nat

/-- Member `hasWhite()`. -/
def PixelDriver.hasWhite (d : PixelDriver) : Bool :=
  d.color_count == 4

/-- Member `setRawValue(uint16_t address, uint8_t value)`: `pixdata[address] = value`.
The argument is converted to `uint16_t` at the call, hence the reduction modulo `2^16`. -/
def PixelDriver.setRawValue (d : PixelDriver) (address value : Nat) : PixelDriver :=
  { d with pixdata := Function.update d.pixdata (address % 65536) value }

/-- Member `setValue(uint16_t address, uint8_t value)`: channel value at a 3 colour address. -/
def PixelDriver.setValue (d : PixelDriver) (address value : Nat) : PixelDriver :=
  if d.color_count = 3 then
    d.setRawValue address value
  else
    d.setRawValue (4 * (address / 3) + (address % 3)) value

/-- Member `setRValue(uint16_t idx, uint8_t value)`. -/
def PixelDriver.setRValue (d : PixelDriver) (idx value : Nat) : PixelDriver :=
  d.setRawValue (d.color_count * idx + 0) value

/-- Member `setGValue(uint16_t idx, uint8_t value)`. -/
def PixelDriver.setGValue (d : PixelDriver) (idx value : Nat) : PixelDriver :=
  d.setRawValue (d.color_count * idx + 1) value

/-- Member `setBValue(uint16_t idx, uint8_t value)`. -/
def PixelDriver.setBValue (d : PixelDriver) (idx value : Nat) : PixelDriver :=
  d.setRawValue (d.color_count * idx + 2) value

/-- Member `setWValue(uint16_t idx, uint8_t value)`. -/
def PixelDriver.setWValue (d : PixelDriver) (idx value : Nat) : PixelDriver :=
  d.setRawValue (d.color_count * idx + 3) value

/-- Member `setGroup(uint16_t _group, uint16_t _zigzag)`. -/
def PixelDriver.setGroup (d : PixelDriver) (_group _zigzag : Nat) : PixelDriver :=
  { d with cntGroup := _group, cntZigzag := _zigzag }

/-- Member `canRefresh()`: `(micros() - startTime) >= refreshTime` in `uint32_t`
arithmetic.  The reading of the microsecond clock is the argument `now`; the driver
is returned next to the answer, the function assigning to no member. -/
def PixelDriver.canRefresh (d : PixelDriver) (now : Nat) : Bool × PixelDriver :=
  (decide (((now : Int) - (d.startTime : Int)) % 4294967296 ≥ (d.refreshTime : Int)), d)

/-- `WritesAt d d' o v`: the state `d'` is `d` after the single store `pixdata[o] = v`,
every other byte and every other member being as in `d`. -/
def WritesAt (d d' : PixelDriver) (o v : Nat) : Prop :=
  d' = { d with pixdata := Function.update d.pixdata o v }

/-- A driver over an all-zero buffer of `numPixels` pixels, as initialisation leaves it
(`szBuffer = numPixels * color_count`), with the channel indices of a GRB / GRBW order;
used to evaluate the members on concrete inputs. -/
def sampleDriver (color : PixelColor) (color_count numPixels startTime refreshTime : Nat) :
    PixelDriver :=
  { type := PixelType.SK6812RGBW, color := color, color_count := color_count,
    cntGroup := 1, cntZigzag := 0, pin := 2, pixdata := fun _ => 0,
    numPixels := numPixels, szBuffer := numPixels * color_count,
    startTime := startTime, refreshTime := refreshTime,
    rOffset := 1, gOffset := 0, bOffset := 2, wOffset := 3 }

/-! ## Auxiliary facts on shifts and masks -/

theorem shiftLeft_or_eq_add (a b k : Nat) (hb : b < 2 ^ k) :
    (a <<< k) ||| b = a * 2 ^ k + b := by
  rw [Nat.shiftLeft_eq, Nat.mul_comm a, ← Nat.mul_add_lt_is_or hb]

theorem shiftRight_and_low (p k n : Nat) :
    (p >>> k) &&& (2 ^ n - 1) = p / 2 ^ k % 2 ^ n := by
  rw [Nat.and_pow_two_sub_one_eq_mod, Nat.shiftRight_eq_div_pow]

theorem and_shiftLeft_shiftRight (p m k : Nat) :
    (p &&& (m <<< k)) >>> k = (p >>> k) &&& m := by
  apply Nat.eq_of_testBit_eq
  intro i
  simp [Nat.testBit_shiftRight, Nat.testBit_and, Nat.testBit_shiftLeft]

theorem gece_get_div (p : Nat) :
    GECE_GET_ADDRESS p = p / 2 ^ 20 % 2 ^ 6 ∧ GECE_GET_BRIGHTNESS p = p / 2 ^ 12 % 2 ^ 8 ∧
    GECE_GET_BLUE p = p / 2 ^ 8 % 2 ^ 4 ∧ GECE_GET_GREEN p = p / 2 ^ 4 % 2 ^ 4 ∧
    GECE_GET_RED p = p % 2 ^ 4 := by
  refine ⟨shiftRight_and_low p 20 6, shiftRight_and_low p 12 8, shiftRight_and_low p 8 4,
    shiftRight_and_low p 4 4, ?_⟩
  exact Nat.and_pow_two_sub_one_eq_mod p 4

theorem gece_word_eq_add (address brightness red green blue : Nat)
    (hb : brightness < 256) (hr : red < 16) (hg : green < 16) (hbl : blue < 16) :
    (address <<< 20 ||| brightness <<< 12 ||| blue <<< 8 ||| green <<< 4 ||| red)
      = address * 2 ^ 20 + brightness * 2 ^ 12 + blue * 2 ^ 8 + green * 2 ^ 4 + red := by
  have h1 : green <<< 4 ||| red = green * 2 ^ 4 + red := shiftLeft_or_eq_add green red 4 (by omega)
  have h2 : blue <<< 8 ||| (green * 2 ^ 4 + red) = blue * 2 ^ 8 + (green * 2 ^ 4 + red) :=
    shiftLeft_or_eq_add blue _ 8 (by omega)
  have h3 : brightness <<< 12 ||| (blue * 2 ^ 8 + (green * 2 ^ 4 + red))
      = brightness * 2 ^ 12 + (blue * 2 ^ 8 + (green * 2 ^ 4 + red)) :=
    shiftLeft_or_eq_add brightness _ 12 (by omega)
  have h4 : address <<< 20 ||| (brightness * 2 ^ 12 + (blue * 2 ^ 8 + (green * 2 ^ 4 + red)))
      = address * 2 ^ 20 + (brightness * 2 ^ 12 + (blue * 2 ^ 8 + (green * 2 ^ 4 + red))) :=
    shiftLeft_or_eq_add address _ 20 (by omega)
  rw [Nat.lor_assoc, Nat.lor_assoc, Nat.lor_assoc, h1, h2, h3, h4]
  omega

theorem lookup_2811_inverse :
    ∀ s < 4, ∃ e, LOOKUP_2811[s]? = some e ∧ LOOKUP_2811.indexOf e = s := by
  decide

theorem slices_reassemble (b : Nat) (hb : b < 256) :
    (((b >>> 6) &&& 3) <<< 6 ||| ((b >>> 4) &&& 3) <<< 4 ||| ((b >>> 2) &&& 3) <<< 2
      ||| (b &&& 3)) = b := by
  have e6 : (b >>> 6) &&& 3 = b / 2 ^ 6 % 2 ^ 2 := shiftRight_and_low b 6 2
  have e4 : (b >>> 4) &&& 3 = b / 2 ^ 4 % 2 ^ 2 := shiftRight_and_low b 4 2
  have e2 : (b >>> 2) &&& 3 = b / 2 ^ 2 % 2 ^ 2 := shiftRight_and_low b 2 2
  have e0 : b &&& 3 = b % 2 ^ 2 := Nat.and_pow_two_sub_one_eq_mod b 2
  rw [e6, e4, e2, e0, Nat.lor_assoc, Nat.lor_assoc]
  rw [shiftLeft_or_eq_add (b / 2 ^ 2 % 2 ^ 2) _ 2 (by omega)]
  rw [shiftLeft_or_eq_add (b / 2 ^ 4 % 2 ^ 2) _ 4 (by omega)]
  rw [shiftLeft_or_eq_add (b / 2 ^ 6 % 2 ^ 2) _ 6 (by omega)]
  omega

theorem setRawValue_writesAt (d : PixelDriver) (address v : Nat) :
    WritesAt d (d.setRawValue address v) (address % 65536) v := rfl

theorem writesAt_pixdata {d d' : PixelDriver} {o v : Nat} (h : WritesAt d d' o v) (i : Nat) :
    d'.pixdata i = if i = o then v else d.pixdata i := by
  rw [h]
  by_cases hi : i = o
  · subst hi; simp
  · simp [Function.update, hi]

theorem writesAt_outside (d d' : PixelDriver) (o v size : Nat) (h : WritesAt d d' o v)
    (ho : size ≤ o) : ∀ i < size, d'.pixdata i = d.pixdata i := by
  intro i hi
  rw [writesAt_pixdata h i, if_neg (by omega)]

/-! ## The symbol tables -/

/-- C6: the symbol tables hold exactly the listed values: `LOOKUP_2811` is
`0b00110111, 0b00000111, 0b00110100, 0b00000100` at the indices `0b00 .. 0b11`,
and `LOOKUP_GECE` is `0b01111100, 0b01100000` at the indices `0, 1`; neither table
has a further entry. -/
theorem lookup_tables_values :
    LOOKUP_2811[0b00]? = some 0b00110111 ∧ LOOKUP_2811[0b01]? = some 0b00000111 ∧
    LOOKUP_2811[0b10]? = some 0b00110100 ∧ LOOKUP_2811[0b11]? = some 0b00000100 ∧
    LOOKUP_2811.length = 4 ∧
    LOOKUP_GECE[0]? = some 0b01111100 ∧ LOOKUP_GECE[1]? = some 0b01100000 ∧
    LOOKUP_GECE.length = 2 := by
  decide

/-- C5: the four entries of `LOOKUP_2811` are pairwise distinct, so the table has an
inverse `inv`; for every byte `b` the four 2-bit slices taken MSB-first,
`(b>>6)&3, (b>>4)&3, (b>>2)&3, b&3`, looked up in `LOOKUP_2811` and decoded through `inv`,
come back unchanged, and they reassemble to `b`. -/
theorem lookup_2811_roundtrip :
    LOOKUP_2811.Nodup ∧ LOOKUP_2811.length = 4 ∧
    ∃ inv : Nat → Nat,
      (∀ s < 4, ∃ e, LOOKUP_2811[s]? = some e ∧ inv e = s) ∧
      ∀ b < 256, ∃ e3 e2 e1 e0 : Nat,
        LOOKUP_2811[(b >>> 6) &&& 3]? = some e3 ∧ LOOKUP_2811[(b >>> 4) &&& 3]? = some e2 ∧
        LOOKUP_2811[(b >>> 2) &&& 3]? = some e1 ∧ LOOKUP_2811[b &&& 3]? = some e0 ∧
        inv e3 = (b >>> 6) &&& 3 ∧ inv e2 = (b >>> 4) &&& 3 ∧
        inv e1 = (b >>> 2) &&& 3 ∧ inv e0 = b &&& 3 ∧
        (inv e3 <<< 6 ||| inv e2 <<< 4 ||| inv e1 <<< 2 ||| inv e0) = b := by
  refine ⟨by decide, by decide, fun e => LOOKUP_2811.indexOf e, lookup_2811_inverse, ?_⟩
  intro b hb
  have hs : ∀ x : Nat, x &&& 3 < 4 := fun x => by
    have : x &&& 3 = x % 2 ^ 2 := Nat.and_pow_two_sub_one_eq_mod x 2
    omega
  obtain ⟨e3, h3, i3⟩ := lookup_2811_inverse _ (hs (b >>> 6))
  obtain ⟨e2, h2, i2⟩ := lookup_2811_inverse _ (hs (b >>> 4))
  obtain ⟨e1, h1, i1⟩ := lookup_2811_inverse _ (hs (b >>> 2))
  obtain ⟨e0, h0, i0⟩ := lookup_2811_inverse _ (hs b)
  refine ⟨e3, e2, e1, e0, h3, h2, h1, h0, i3, i2, i1, i0, ?_⟩
  simp only [i3, i2, i1, i0]
  exact slices_reassemble b hb

/-- The byte `0xA5 = 0b10100101` has the slices `2, 2, 1, 1`, which it gets back. -/
theorem lookup_2811_roundtrip_witness :
    0xA5 < 256 ∧ ∃ inv : Nat → Nat, ∃ e3 e2 e1 e0 : Nat,
      LOOKUP_2811[2]? = some e3 ∧ LOOKUP_2811[2]? = some e2 ∧
      LOOKUP_2811[1]? = some e1 ∧ LOOKUP_2811[1]? = some e0 ∧
      inv e3 = 2 ∧ inv e2 = 2 ∧ inv e1 = 1 ∧ inv e0 = 1 ∧
      (inv e3 <<< 6 ||| inv e2 <<< 4 ||| inv e1 <<< 2 ||| inv e0) = 0xA5 := by
  obtain ⟨_, _, inv, _, h⟩ := lookup_2811_roundtrip
  exact ⟨by decide, inv, h 0xA5 (by decide)⟩

/-- C8: for every 2-bit value `i`, the entry `LOOKUP_2811[i]` sent as an inverted 6N1
frame, i.e. the line levels `1, not d0, .., not d5, 0` over its low six bits, is the symbol
of the high bit of `i` followed by the symbol of its low bit, where the symbol of `0` is
`1,0,0,0` and that of `1` is `1,1,1,0`; and the top two bits of the entry are `0`. -/
theorem lookup_2811_waveform (i : Nat) (hi : i < 4) :
    ∃ e, LOOKUP_2811[i]? = some e ∧
      [true, !e.testBit 0, !e.testBit 1, !e.testBit 2, !e.testBit 3, !e.testBit 4,
        !e.testBit 5, false]
        = (if i.testBit 1 then [true, true, true, false] else [true, false, false, false]) ++
          (if i.testBit 0 then [true, true, true, false] else [true, false, false, false]) ∧
      e >>> 6 = 0 := by
  revert i
  decide

/-- The entry for the slice `0b10` is `0b00110100`, whose frame is `1,1,1,0, 1,0,0,0`. -/
theorem lookup_2811_waveform_witness :
    2 < 4 ∧ ∃ e, LOOKUP_2811[2]? = some e ∧
      [true, !e.testBit 0, !e.testBit 1, !e.testBit 2, !e.testBit 3, !e.testBit 4,
        !e.testBit 5, false]
        = [true, true, true, false] ++ [true, false, false, false] ∧
      e >>> 6 = 0 :=
  ⟨by decide, lookup_2811_waveform 2 (by decide)⟩

/-! ## GECE packets -/

/-- C4: for `address < 64`, `brightness < 256` and `red, green, blue < 16` the packet word
`address<<20 | brightness<<12 | blue<<8 | green<<4 | red` is below `2^GECE_PSIZE` and each
`GECE_GET_x` macro recovers its field from it; for `address = 0x2A`, `brightness = 0xCC`,
`red = 0x5`, `green = 0x3`, `blue = 0xF` the word is `0x02ACCF35`. -/
theorem gece_packet_fields (address brightness red green blue : Nat)
    (ha : address < 64) (hb : brightness < 256)
    (hr : red < 16) (hg : green < 16) (hbl : blue < 16) :
    (address <<< 20 ||| brightness <<< 12 ||| blue <<< 8 ||| green <<< 4 ||| red)
        < 2 ^ GECE_PSIZE ∧
    GECE_GET_ADDRESS (address <<< 20 ||| brightness <<< 12 ||| blue <<< 8 ||| green <<< 4 ||| red)
        = address ∧
    GECE_GET_BRIGHTNESS
        (address <<< 20 ||| brightness <<< 12 ||| blue <<< 8 ||| green <<< 4 ||| red)
        = brightness ∧
    GECE_GET_BLUE (address <<< 20 ||| brightness <<< 12 ||| blue <<< 8 ||| green <<< 4 ||| red)
        = blue ∧
    GECE_GET_GREEN (address <<< 20 ||| brightness <<< 12 ||| blue <<< 8 ||| green <<< 4 ||| red)
        = green ∧
    GECE_GET_RED (address <<< 20 ||| brightness <<< 12 ||| blue <<< 8 ||| green <<< 4 ||| red)
        = red ∧
    (0x2A <<< 20 ||| 0xCC <<< 12 ||| 0xF <<< 8 ||| 0x3 <<< 4 ||| 0x5) = 0x02ACCF35 := by
  obtain ⟨e1, e2, e3, e4, e5⟩ :=
    gece_get_div (address <<< 20 ||| brightness <<< 12 ||| blue <<< 8 ||| green <<< 4 ||| red)
  rw [e1, e2, e3, e4, e5, gece_word_eq_add address brightness red green blue hb hr hg hbl]
  refine ⟨?_, ?_, ?_, ?_, ?_, ?_, by decide⟩
  · simp only [GECE_PSIZE]; omega
  all_goals omega

/-- The packet of address `0x2A`, brightness `0xCC`, red `0x5`, green `0x3`, blue `0xF`
decomposes into these fields. -/
theorem gece_packet_fields_witness :
    (0x2A < 64 ∧ 0xCC < 256 ∧ 0x5 < 16 ∧ 0x3 < 16 ∧ 0xF < 16) ∧
    GECE_GET_ADDRESS 0x02ACCF35 = 0x2A ∧ GECE_GET_BRIGHTNESS 0x02ACCF35 = 0xCC ∧
    GECE_GET_BLUE 0x02ACCF35 = 0xF ∧ GECE_GET_GREEN 0x02ACCF35 = 0x3 ∧
    GECE_GET_RED 0x02ACCF35 = 0x5 :=
  ⟨by decide,
    (gece_packet_fields 0x2A 0xCC 0x5 0x3 0xF (by decide) (by decide) (by decide) (by decide)
      (by decide)).2.imp_right
      fun h => h.imp_right fun h => h.imp_right fun h => h.imp_right fun h => h.1⟩

/-- C10: the five GECE field masks are pairwise disjoint, their bitwise OR is
`2^GECE_PSIZE - 1 = 0x03FFFFFF`, for every word `p` (in particular every 32-bit one) each
`GECE_GET_x(p)` equals `(p & GECE_x_MASK)` shifted right by the position of the field
(20, 12, 8, 4, 0), and recomposing the five extracted fields gives `p & 0x03FFFFFF`. -/
theorem gece_masks_partition (p : Nat) :
    GECE_ADDRESS_MASK &&& GECE_BRIGHTNESS_MASK = 0 ∧ GECE_ADDRESS_MASK &&& GECE_BLUE_MASK = 0 ∧
    GECE_ADDRESS_MASK &&& GECE_GREEN_MASK = 0 ∧ GECE_ADDRESS_MASK &&& GECE_RED_MASK = 0 ∧
    GECE_BRIGHTNESS_MASK &&& GECE_BLUE_MASK = 0 ∧ GECE_BRIGHTNESS_MASK &&& GECE_GREEN_MASK = 0 ∧
    GECE_BRIGHTNESS_MASK &&& GECE_RED_MASK = 0 ∧ GECE_BLUE_MASK &&& GECE_GREEN_MASK = 0 ∧
    GECE_BLUE_MASK &&& GECE_RED_MASK = 0 ∧ GECE_GREEN_MASK &&& GECE_RED_MASK = 0 ∧
    (GECE_ADDRESS_MASK ||| GECE_BRIGHTNESS_MASK ||| GECE_BLUE_MASK ||| GECE_GREEN_MASK
      ||| GECE_RED_MASK) = 2 ^ GECE_PSIZE - 1 ∧
    2 ^ GECE_PSIZE - 1 = 0x03FFFFFF ∧
    GECE_GET_ADDRESS p = (p &&& GECE_ADDRESS_MASK) >>> 20 ∧
    GECE_GET_BRIGHTNESS p = (p &&& GECE_BRIGHTNESS_MASK) >>> 12 ∧
    GECE_GET_BLUE p = (p &&& GECE_BLUE_MASK) >>> 8 ∧
    GECE_GET_GREEN p = (p &&& GECE_GREEN_MASK) >>> 4 ∧
    GECE_GET_RED p = (p &&& GECE_RED_MASK) >>> 0 ∧
    (GECE_GET_ADDRESS p <<< 20 ||| GECE_GET_BRIGHTNESS p <<< 12 ||| GECE_GET_BLUE p <<< 8
      ||| GECE_GET_GREEN p <<< 4 ||| GECE_GET_RED p) = p &&& 0x03FFFFFF := by
  refine ⟨by decide, by decide, by decide, by decide, by decide, by decide, by decide,
    by decide, by decide, by decide, by decide, by decide, ?_, ?_, ?_, ?_, ?_, ?_⟩
  · exact (and_shiftLeft_shiftRight p 0x3F 20).symm
  · exact (and_shiftLeft_shiftRight p 0xFF 12).symm
  · exact (and_shiftLeft_shiftRight p 0x0F 8).symm
  · exact (and_shiftLeft_shiftRight p 0x0F 4).symm
  · rfl
  · obtain ⟨e1, e2, e3, e4, e5⟩ := gece_get_div p
    rw [gece_word_eq_add _ _ _ _ _ (by rw [e2]; omega) (by rw [e5]; omega) (by rw [e4]; omega)
      (by rw [e3]; omega), e1, e2, e3, e4, e5]
    have h : p &&& 0x03FFFFFF = p % 2 ^ 26 := Nat.and_pow_two_sub_one_eq_mod p 26
    rw [h]
    omega

/-! ## Channel setters -/

/-- C1, as the code has it: for every driver state (hence every one of the 12 colour orders)
and every pixel index `idx`, `setRValue`, `setGValue`, `setBValue`, `setWValue` store the
value at offset `(color_count*idx + k) mod 2^16` with the fixed `k = 0, 1, 2, 3`, without
consulting the colour order; on a 4-channel buffer with colour order GRBW,
`setGValue(idx, v)` stores `v` at offset `4*idx + 1` (for `idx < 16384`). -/
theorem setters_ignore_color_order (d : PixelDriver) (idx v : Nat) :
    WritesAt d (d.setRValue idx v) ((d.color_count * idx + 0) % 65536) v ∧
    WritesAt d (d.setGValue idx v) ((d.color_count * idx + 1) % 65536) v ∧
    WritesAt d (d.setBValue idx v) ((d.color_count * idx + 2) % 65536) v ∧
    WritesAt d (d.setWValue idx v) ((d.color_count * idx + 3) % 65536) v ∧
    (d.color = PixelColor.GRBW → d.color_count = 4 → idx < 16384 →
      WritesAt d (d.setGValue idx v) (4 * idx + 1) v) := by
  refine ⟨rfl, rfl, rfl, rfl, ?_⟩
  intro _ hc hidx
  have h : WritesAt d (d.setGValue idx v) ((d.color_count * idx + 1) % 65536) v := rfl
  rwa [hc, Nat.mod_eq_of_lt (by omega)] at h

/-- On a GRBW driver of 10 pixels, `setGValue(7, 171)` stores at offset `4*7 + 1 = 29`. -/
theorem setters_ignore_color_order_witness :
    (sampleDriver PixelColor.GRBW 4 10 0 0).color = PixelColor.GRBW ∧
    (sampleDriver PixelColor.GRBW 4 10 0 0).color_count = 4 ∧ 7 < 16384 ∧
    WritesAt (sampleDriver PixelColor.GRBW 4 10 0 0)
      ((sampleDriver PixelColor.GRBW 4 10 0 0).setGValue 7 171) 29 171 :=
  ⟨rfl, rfl, by decide,
    (setters_ignore_color_order (sampleDriver PixelColor.GRBW 4 10 0 0) 7 171).2.2.2.2
      rfl rfl (by decide)⟩

/-- C1 fails as stated: on a 4-channel GRBW driver `setGValue(0, 171)` does not store at
offset `4*0 + 0`; the byte there keeps its value `0` and `171` is found at offset `4*0 + 1`. -/
theorem setGValue_grbw_counterexample :
    (sampleDriver PixelColor.GRBW 4 10 0 0).color = PixelColor.GRBW ∧
    (sampleDriver PixelColor.GRBW 4 10 0 0).color_count = 4 ∧
    ¬ WritesAt (sampleDriver PixelColor.GRBW 4 10 0 0)
        ((sampleDriver PixelColor.GRBW 4 10 0 0).setGValue 0 171) (4 * 0 + 0) 171 ∧
    ((sampleDriver PixelColor.GRBW 4 10 0 0).setGValue 0 171).pixdata (4 * 0 + 0) = 0 ∧
    ((sampleDriver PixelColor.GRBW 4 10 0 0).setGValue 0 171).pixdata (4 * 0 + 1) = 171 := by
  refine ⟨rfl, rfl, ?_, by decide, by decide⟩
  intro h
  have h0 := writesAt_pixdata h 0
  revert h0
  decide

/-- C2, as the code has it: no setter checks a bound or fails. `setRawValue(address, v)`
stores `v` at `pixdata[address]` for every 16-bit `address`, and `setRValue`, `setGValue`,
`setBValue`, `setWValue` store at offset `(color_count*idx + k) mod 2^16`, `k = 0, 1, 2, 3`,
for every `idx`. When that offset is at least the buffer size `numPixels * color_count`
the store lands past the buffer and every byte of the buffer is unchanged. -/
theorem setters_unchecked (d : PixelDriver) (address idx v : Nat) (ha : address < 65536) :
    (WritesAt d (d.setRawValue address v) address v ∧
      (d.numPixels * d.color_count ≤ address →
        ∀ i < d.numPixels * d.color_count, (d.setRawValue address v).pixdata i = d.pixdata i)) ∧
    (WritesAt d (d.setRValue idx v) ((d.color_count * idx + 0) % 65536) v ∧
      (d.numPixels * d.color_count ≤ (d.color_count * idx + 0) % 65536 →
        ∀ i < d.numPixels * d.color_count, (d.setRValue idx v).pixdata i = d.pixdata i)) ∧
    (WritesAt d (d.setGValue idx v) ((d.color_count * idx + 1) % 65536) v ∧
      (d.numPixels * d.color_count ≤ (d.color_count * idx + 1) % 65536 →
        ∀ i < d.numPixels * d.color_count, (d.setGValue idx v).pixdata i = d.pixdata i)) ∧
    (WritesAt d (d.setBValue idx v) ((d.color_count * idx + 2) % 65536) v ∧
      (d.numPixels * d.color_count ≤ (d.color_count * idx + 2) % 65536 →
        ∀ i < d.numPixels * d.color_count, (d.setBValue idx v).pixdata i = d.pixdata i)) ∧
    (WritesAt d (d.setWValue idx v) ((d.color_count * idx + 3) % 65536) v ∧
      (d.numPixels * d.color_count ≤ (d.color_count * idx + 3) % 65536 →
        ∀ i < d.numPixels * d.color_count, (d.setWValue idx v).pixdata i = d.pixdata i)) := by
  have hraw : WritesAt d (d.setRawValue address v) address v := by
    have h := setRawValue_writesAt d address v
    rwa [Nat.mod_eq_of_lt ha] at h
  exact ⟨⟨hraw, writesAt_outside _ _ _ _ _ hraw⟩,
    ⟨rfl, writesAt_outside _ _ _ _ _ (setRawValue_writesAt d _ v)⟩,
    ⟨rfl, writesAt_outside _ _ _ _ _ (setRawValue_writesAt d _ v)⟩,
    ⟨rfl, writesAt_outside _ _ _ _ _ (setRawValue_writesAt d _ v)⟩,
    ⟨rfl, writesAt_outside _ _ _ _ _ (setRawValue_writesAt d _ v)⟩⟩

/-- On a 4-channel driver of 100 pixels (400 bytes), `setRawValue(400, 7)` stores at offset
`400` and `setBValue(100, 7)` at offset `402`; the 400 bytes of the buffer stay zero. -/
theorem setters_unchecked_witness :
    400 < 65536 ∧
    WritesAt (sampleDriver PixelColor.GRBW 4 100 0 0)
      ((sampleDriver PixelColor.GRBW 4 100 0 0).setRawValue 400 7) 400 7 ∧
    (∀ i < 400, ((sampleDriver PixelColor.GRBW 4 100 0 0).setRawValue 400 7).pixdata i = 0) ∧
    WritesAt (sampleDriver PixelColor.GRBW 4 100 0 0)
      ((sampleDriver PixelColor.GRBW 4 100 0 0).setBValue 100 7) 402 7 ∧
    (∀ i < 400, ((sampleDriver PixelColor.GRBW 4 100 0 0).setBValue 100 7).pixdata i = 0) :=
  have h := setters_unchecked (sampleDriver PixelColor.GRBW 4 100 0 0) 400 100 7 (by decide)
  ⟨by decide, h.1.1, h.1.2 (by decide), h.2.2.2.1.1, h.2.2.2.1.2 (by decide)⟩

/-- C2 fails as stated, on a 4-channel driver of 100 pixels (a buffer of 400 bytes):
`setRawValue(400, 7)` does not fail but stores `7` at offset `400`, outside the buffer; and
`setRValue(16384, 7)`, with `16384 >= numPixels`, overwrites byte `0` of the buffer, the
offset `4 * 16384` being truncated to 16 bits. -/
theorem setters_out_of_bounds_counterexample :
    (sampleDriver PixelColor.GRBW 4 100 0 0).numPixels
      * (sampleDriver PixelColor.GRBW 4 100 0 0).color_count ≤ 400 ∧
    (sampleDriver PixelColor.GRBW 4 100 0 0).pixdata 400 = 0 ∧
    ((sampleDriver PixelColor.GRBW 4 100 0 0).setRawValue 400 7).pixdata 400 = 7 ∧
    (sampleDriver PixelColor.GRBW 4 100 0 0).numPixels ≤ 16384 ∧
    (sampleDriver PixelColor.GRBW 4 100 0 0).pixdata 0 = 0 ∧
    ((sampleDriver PixelColor.GRBW 4 100 0 0).setRValue 16384 7).pixdata 0 = 7 := by
  decide

/-- C7: for colour count 3 or 4 and every pixel index `idx` with
`color_count*idx + color_count <= 65536`, the per-channel setters of the pixel (R, G, B when
`hasWhite` is false; R, G, B, W when it is true) store at pairwise distinct offsets, each of
them inside the footprint `[color_count*idx, color_count*idx + color_count)` of the pixel,
and every offset of the footprint is the one of some channel. -/
theorem channel_offsets_distinct (d : PixelDriver) (idx : Nat)
    (hc : d.color_count = 3 ∨ d.color_count = 4)
    (hfit : d.color_count * idx + d.color_count ≤ 65536) :
    (d.hasWhite = false → d.color_count = 3 ∧ ∃ oR oG oB : Nat,
      (∀ v, WritesAt d (d.setRValue idx v) oR v) ∧ (∀ v, WritesAt d (d.setGValue idx v) oG v) ∧
      (∀ v, WritesAt d (d.setBValue idx v) oB v) ∧
      oR ≠ oG ∧ oR ≠ oB ∧ oG ≠ oB ∧
      (3 * idx ≤ oR ∧ oR < 3 * idx + 3) ∧ (3 * idx ≤ oG ∧ oG < 3 * idx + 3) ∧
      (3 * idx ≤ oB ∧ oB < 3 * idx + 3) ∧
      ∀ k < 3, 3 * idx + k = oR ∨ 3 * idx + k = oG ∨ 3 * idx + k = oB) ∧
    (d.hasWhite = true → d.color_count = 4 ∧ ∃ oR oG oB oW : Nat,
      (∀ v, WritesAt d (d.setRValue idx v) oR v) ∧ (∀ v, WritesAt d (d.setGValue idx v) oG v) ∧
      (∀ v, WritesAt d (d.setBValue idx v) oB v) ∧ (∀ v, WritesAt d (d.setWValue idx v) oW v) ∧
      oR ≠ oG ∧ oR ≠ oB ∧ oR ≠ oW ∧ oG ≠ oB ∧ oG ≠ oW ∧ oB ≠ oW ∧
      (4 * idx ≤ oR ∧ oR < 4 * idx + 4) ∧ (4 * idx ≤ oG ∧ oG < 4 * idx + 4) ∧
      (4 * idx ≤ oB ∧ oB < 4 * idx + 4) ∧ (4 * idx ≤ oW ∧ oW < 4 * idx + 4) ∧
      ∀ k < 4, 4 * idx + k = oR ∨ 4 * idx + k = oG ∨ 4 * idx + k = oB ∨ 4 * idx + k = oW) := by
  have hw : ∀ k, d.color_count * idx + k < 65536 →
      ∀ v, WritesAt d (d.setRawValue (d.color_count * idx + k) v) (d.color_count * idx + k) v := by
    intro k hk v
    have h := setRawValue_writesAt d (d.color_count * idx + k) v
    rwa [Nat.mod_eq_of_lt hk] at h
  constructor
  · intro hW
    have h3 : d.color_count = 3 := by
      rcases hc with h | h
      · exact h
      · simp [PixelDriver.hasWhite, h] at hW
    refine ⟨h3, d.color_count * idx + 0, d.color_count * idx + 1, d.color_count * idx + 2,
      hw 0 (by omega), hw 1 (by omega), hw 2 (by omega), ?_⟩
    rw [h3]
    refine ⟨by omega, by omega, by omega, by omega, by omega, by omega, ?_⟩
    intro k hk
    omega
  · intro hW
    have h4 : d.color_count = 4 := by
      rcases hc with h | h
      · simp [PixelDriver.hasWhite, h] at hW
      · exact h
    refine ⟨h4, d.color_count * idx + 0, d.color_count * idx + 1, d.color_count * idx + 2,
      d.color_count * idx + 3, hw 0 (by omega), hw 1 (by omega), hw 2 (by omega),
      hw 3 (by omega), ?_⟩
    rw [h4]
    refine ⟨by omega, by omega, by omega, by omega, by omega, by omega, by omega, by omega,
      by omega, by omega, ?_⟩
    intro k hk
    omega

/-- Pixel 5 of a 4-channel driver: the four setters store at four distinct offsets of
`[20, 24)`. -/
theorem channel_offsets_distinct_witness :
    ((sampleDriver PixelColor.GRBW 4 100 0 0).color_count = 3 ∨
      (sampleDriver PixelColor.GRBW 4 100 0 0).color_count = 4) ∧
    (sampleDriver PixelColor.GRBW 4 100 0 0).color_count * 5
      + (sampleDriver PixelColor.GRBW 4 100 0 0).color_count ≤ 65536 ∧
    ∃ oR oG oB oW : Nat,
      (∀ v, WritesAt (sampleDriver PixelColor.GRBW 4 100 0 0)
        ((sampleDriver PixelColor.GRBW 4 100 0 0).setRValue 5 v) oR v) ∧
      (∀ v, WritesAt (sampleDriver PixelColor.GRBW 4 100 0 0)
        ((sampleDriver PixelColor.GRBW 4 100 0 0).setGValue 5 v) oG v) ∧
      (∀ v, WritesAt (sampleDriver PixelColor.GRBW 4 100 0 0)
        ((sampleDriver PixelColor.GRBW 4 100 0 0).setBValue 5 v) oB v) ∧
      (∀ v, WritesAt (sampleDriver PixelColor.GRBW 4 100 0 0)
        ((sampleDriver PixelColor.GRBW 4 100 0 0).setWValue 5 v) oW v) ∧
      oR ≠ oG ∧ oR ≠ oB ∧ oR ≠ oW ∧ oG ≠ oB ∧ oG ≠ oW ∧ oB ≠ oW ∧
      (20 ≤ oR ∧ oR < 24) ∧ (20 ≤ oG ∧ oG < 24) ∧ (20 ≤ oB ∧ oB < 24) ∧ (20 ≤ oW ∧ oW < 24) :=
  have h := (channel_offsets_distinct (sampleDriver PixelColor.GRBW 4 100 0 0) 5
    (Or.inr rfl) (by decide)).2 rfl
  ⟨Or.inr rfl, by decide,
    h.2.imp fun _ h => h.imp fun _ h => h.imp fun _ h => h.imp fun _ h =>
      ⟨h.1, h.2.1, h.2.2.1, h.2.2.2.1, h.2.2.2.2.1, h.2.2.2.2.2.1, h.2.2.2.2.2.2.1,
        h.2.2.2.2.2.2.2.1, h.2.2.2.2.2.2.2.2.1, h.2.2.2.2.2.2.2.2.2.1,
        h.2.2.2.2.2.2.2.2.2.2.1, h.2.2.2.2.2.2.2.2.2.2.2.1, h.2.2.2.2.2.2.2.2.2.2.2.2.1,
        h.2.2.2.2.2.2.2.2.2.2.2.2.2.1⟩⟩

/-- C9: on a 3-channel driver `setValue(a, v)` stores `v` at offset `a`; on a 4-channel
driver, for every address `a < 49152`, it stores `v` at offset `4*(a/3) + a%3`, that offset
is not congruent to 3 modulo 4, and any other address below 49152 is stored at another
offset. -/
theorem setValue_three_colour (d : PixelDriver) (a v : Nat) :
    (d.color_count = 3 → a < 65536 → WritesAt d (d.setValue a v) a v) ∧
    (d.color_count = 4 → a < 49152 →
      WritesAt d (d.setValue a v) (4 * (a / 3) + a % 3) v ∧
      (4 * (a / 3) + a % 3) % 4 ≠ 3 ∧
      ∀ a', a' < 49152 → a' ≠ a → ∀ v',
        WritesAt d (d.setValue a' v') (4 * (a' / 3) + a' % 3) v' ∧
        4 * (a' / 3) + a' % 3 ≠ 4 * (a / 3) + a % 3) := by
  have h4 : ∀ x w, d.color_count = 4 → x < 49152 →
      WritesAt d (d.setValue x w) (4 * (x / 3) + x % 3) w := by
    intro x w hc hx
    have h := setRawValue_writesAt d (4 * (x / 3) + x % 3) w
    rw [Nat.mod_eq_of_lt (show 4 * (x / 3) + x % 3 < 65536 by omega)] at h
    simpa [PixelDriver.setValue, hc] using h
  constructor
  · intro hc ha
    have h := setRawValue_writesAt d a v
    rw [Nat.mod_eq_of_lt ha] at h
    simpa [PixelDriver.setValue, hc] using h
  · intro hc ha
    refine ⟨h4 a v hc ha, by omega, ?_⟩
    intro a' ha' hne v'
    exact ⟨h4 a' v' hc ha', by omega⟩

/-- Address 7 on a 4-channel driver goes to offset `4*2 + 1 = 9`, address 8 to offset 10. -/
theorem setValue_three_colour_witness :
    (sampleDriver PixelColor.GRBW 4 100 0 0).color_count = 4 ∧ 7 < 49152 ∧ 8 < 49152 ∧
    WritesAt (sampleDriver PixelColor.GRBW 4 100 0 0)
      ((sampleDriver PixelColor.GRBW 4 100 0 0).setValue 7 171) 9 171 ∧
    9 % 4 ≠ 3 ∧
    WritesAt (sampleDriver PixelColor.GRBW 4 100 0 0)
      ((sampleDriver PixelColor.GRBW 4 100 0 0).setValue 8 33) 10 33 :=
  have h := (setValue_three_colour (sampleDriver PixelColor.GRBW 4 100 0 0) 7 171).2
    rfl (by decide)
  ⟨rfl, by decide, by decide, h.1, h.2.1, (h.2.2 8 (by decide) (by decide) 33).1⟩

/-! ## Frame-rate governor -/

/-- C3: `canRefresh` leaves the driver as it is and answers true exactly when the 32-bit
unsigned difference of `now` and `startTime`, the one `diff < 2^32` congruent to
`now - startTime` modulo `2^32`, is at least `refreshTime`. Hence it answers false when
`now = startTime` and `refreshTime > 0`, and for every elapsed time `dt < 2^32` with
`now = (startTime + dt) mod 2^32` it answers true if and only if `dt >= refreshTime`,
whether or not the counter has wrapped since `startTime`. -/
theorem canRefresh_spec (d : PixelDriver) (now : Nat) :
    (d.canRefresh now).2 = d ∧
    (∃ diff : Nat, diff < 2 ^ 32 ∧ ((diff : Int) ≡ (now : Int) - d.startTime [ZMOD 2 ^ 32]) ∧
      ((d.canRefresh now).1 = true ↔ d.refreshTime ≤ diff)) ∧
    (now = d.startTime → 0 < d.refreshTime → (d.canRefresh now).1 = false) ∧
    (∀ dt < 2 ^ 32, now = (d.startTime + dt) % 2 ^ 32 →
      ((d.canRefresh now).1 = true ↔ d.refreshTime ≤ dt)) := by
  refine ⟨rfl, ?_, ?_, ?_⟩
  · refine ⟨(((now : Int) - (d.startTime : Int)) % 4294967296).toNat, ?_, ?_, ?_⟩
    · omega
    · have h : (0 : Int) ≤ ((now : Int) - (d.startTime : Int)) % 4294967296 :=
        Int.emod_nonneg _ (by norm_num)
      rw [Int.toNat_of_nonneg h]
      exact Int.mod_modEq _ _
    · simp only [PixelDriver.canRefresh, decide_eq_true_eq]
      omega
  · intro h hr
    simp only [PixelDriver.canRefresh, decide_eq_false_iff_not]
    omega
  · intro dt hdt h
    simp only [PixelDriver.canRefresh, decide_eq_true_eq]
    omega

/-- A frame started at `4294967000` with `refreshTime = 1000`: 1000 microseconds later the
counter has wrapped to `704` and `canRefresh` answers true. -/
theorem canRefresh_spec_witness :
    1000 < 2 ^ 32 ∧ 704 = (4294967000 + 1000) % 2 ^ 32 ∧
    ((sampleDriver PixelColor.GRBW 4 100 4294967000 1000).canRefresh 704).1 = true :=
  ⟨by decide, by decide,
    ((canRefresh_spec (sampleDriver PixelColor.GRBW 4 100 4294967000 1000) 704).2.2.2
      1000 (by decide) (by decide)).2 (Nat.le_refl 1000)⟩
